import Mathlib

/-!
Verification of the asynchronous job orchestration subsystem of
amplify/functions/earthaccess/index.py.

The embedding models:
  - the DynamoDB job table as an association list keyed by jobId, where each
    item is a record of optional attributes (an absent attribute is none);
  - the three handler entry points: startEarthAccessJob (Submit),
    process_earth_data (Execute, reached through the processJob branch) and
    getEarthAccessJobStatus (GetStatus);
  - effects (put_item, update_item, lambda invoke, work executor call) as an
    explicit trace, so ordering claims can be stated;
  - storage fallibility of update_item inside process_earth_data as an oracle
    list consumed call by call (none = the call succeeds, some msg = the call
    raises msg), because the except block of process_earth_data catches every
    exception raised in its try block, storage exceptions included;
  - the Work Executor (earthaccess login, pull_multi_year_data and the
    averaging code) as an opaque outcome parameter, as the spec directs
    (it is an external collaborator);
  - Python numeric values (float and Decimal) as exact rationals.  The code
    converts a float v to the store with Decimal(str(v)) and back with
    float(d); Python documents that str produces the shortest string that
    round-trips, so float(Decimal(str(v))) == v for every finite float.  The
    value-level model therefore carries the same rational across both
    conversions (floatToDecimalQ and decimalToFloatQ below).
-/

/-! ## Definitions -/

/-- Value-level model of the Python expression Decimal(str(v)) for a float v:
the stored decimal denotes the same numeric value as v, by the documented
shortest round-trip guarantee of str on floats. -/
def floatToDecimalQ (q : Rat) : Rat := q

/-- Value-level model of the Python expression float(d) for a Decimal d that
was produced by Decimal(str(v)): it denotes the same numeric value. -/
def decimalToFloatQ (q : Rat) : Rat := q

/-- A DynamoDB job item: a record of optional attributes.  An attribute that
was never SET is none.  Field names follow the item keys used in index.py. -/
structure JobRecord where
  status : Option String := none
  lat : Option Rat := none
  long : Option Rat := none
  date : Option String := none
  timezone : Option String := none
  createdAt : Option String := none
  result : Option (List (String × Rat)) := none
  error : Option String := none
  completedAt : Option String := none
deriving Repr, DecidableEq

/-- The job table: an association list keyed by jobId. -/
abbrev Store := List (String × JobRecord)

/-- Model of table.get_item: the item stored under the key, if any. -/
def getItem (st : Store) (k : String) : Option JobRecord :=
  (st.find? (fun p => p.1 == k)).map (fun p => p.2)

/-- Model of table.put_item: replaces the whole item stored under the key. -/
def putItem (st : Store) (k : String) (r : JobRecord) : Store :=
  (k, r) :: st.filter (fun p => p.1 != k)

/-- The three UpdateExpression shapes used by index.py.  Each one names
exactly the attributes its SET clause writes. -/
inductive UpdateSpec where
  | setStatus (status : String)
  | setCompleted (status : String) (result : List (String × Rat)) (completedAt : String)
  | setFailed (status : String) (error : String) (completedAt : String)
deriving Repr, DecidableEq

/-- Semantics of one UpdateExpression applied to an item: only the attributes
named in the SET clause change; every other attribute keeps its value. -/
def applyUpdate : UpdateSpec → JobRecord → JobRecord
  | .setStatus s, r => { r with status := some s }
  | .setCompleted s res c, r =>
      { r with status := some s, result := some res, completedAt := some c }
  | .setFailed s e c, r =>
      { r with status := some s, error := some e, completedAt := some c }

/-- The status value a given update writes (every UpdateExpression in
index.py SETs the status attribute). -/
def UpdateSpec.newStatus : UpdateSpec → String
  | .setStatus s => s
  | .setCompleted s _ _ => s
  | .setFailed s _ _ => s

/-- Model of table.update_item: updates the item under the key; like
DynamoDB, it creates the item from nothing but the SET attributes when no
item exists under the key. -/
def updateItem (st : Store) (k : String) (u : UpdateSpec) : Store :=
  match getItem st k with
  | some r => putItem st k (applyUpdate u r)
  | none => putItem st k (applyUpdate u {})

/-- The payload of the asynchronous self-invocation performed by the
startEarthAccessJob branch of the handler. -/
structure InvokePayload where
  processJob : Bool
  jobId : String
  date : String
  lat : Rat
  long : Rat
  timezone : String
  tableName : String
deriving Repr, DecidableEq

/-- The parameters handed to the Work Executor (the earthaccess computation)
by process_earth_data. -/
structure WorkParams where
  date : String
  lat : Rat
  long : Rat
  timezone : String
deriving Repr, DecidableEq

/-- One observable side effect of an orchestrator operation. -/
inductive Effect where
  | putItemE (jobId : String) (item : JobRecord)
  | updateItemE (jobId : String) (upd : UpdateSpec)
  | invokeAsyncE (payload : InvokePayload)
  | workCallE (params : WorkParams)
deriving Repr, DecidableEq

/-- The arguments object of a startEarthAccessJob request; a missing key is
none (accessing it raises KeyError in Python). -/
structure Args where
  date : Option String := none
  lat : Option Rat := none
  long : Option Rat := none
  timezone : Option String := none
deriving Repr, DecidableEq

deriving instance DecidableEq for Except

/-- Result of the startEarthAccessJob branch: the value returned to the
caller (or the propagated exception), the table contents afterwards, and the
trace of effects that were performed. -/
structure SubmitOutcome where
  ret : Except String String
  store : Store
  trace : List Effect
deriving Repr, DecidableEq

/-- The startEarthAccessJob branch of handler (index.py lines 227 to 276).
The generated uuid4 is the job_id parameter.  The four argument reads happen
in source order before the put_item; a missing one raises KeyError there, so
nothing is written.  On success: one put_item of the pending record, then one
asynchronous invoke, then the id is returned. -/
def startEarthAccessJob (st : Store) (job_id : String) (args : Args)
    (now : String) (tableName : String) : SubmitOutcome :=
  match args.date with
  | none => ⟨.error "KeyError: date", st, []⟩
  | some date_str =>
    match args.lat with
    | none => ⟨.error "KeyError: lat", st, []⟩
    | some lat =>
      match args.long with
      | none => ⟨.error "KeyError: long", st, []⟩
      | some lon =>
        match args.timezone with
        | none => ⟨.error "KeyError: timezone", st, []⟩
        | some tz =>
          let item : JobRecord :=
            { status := some "pending"
              lat := some (floatToDecimalQ lat)
              long := some (floatToDecimalQ lon)
              date := some date_str
              timezone := some tz
              createdAt := some now }
          let payload : InvokePayload := ⟨true, job_id, date_str, lat, lon, tz, tableName⟩
          ⟨.ok job_id, putItem st job_id item,
            [.putItemE job_id item, .invokeAsyncE payload]⟩

/-- Result of process_earth_data: the outcome seen by its caller (ok, or the
exception that propagates), the table contents afterwards, and the trace of
effects that were performed. -/
structure ExecOutcome where
  outcome : Except String Unit
  store : Store
  trace : List Effect
deriving Repr, DecidableEq

/-- The except branch of process_earth_data (index.py lines 184 to 200): it
catches the exception msg, attempts one update_item writing status failed,
the error message and completedAt, and then re-raises.  slot is the storage
oracle entry for that update_item: when it is some m2, the recording write
itself raises and m2 propagates instead, leaving the store untouched. -/
def recordFailure (st : Store) (job_id : String) (msg : String) (now : String)
    (slot : Option String) (tr : List Effect) : ExecOutcome :=
  match slot with
  | none =>
      ⟨.error msg, updateItem st job_id (.setFailed "failed" msg now),
        tr ++ [.updateItemE job_id (.setFailed "failed" msg now)]⟩
  | some m2 => ⟨.error m2, st, tr⟩

/-- process_earth_data (index.py lines 121 to 200).  work is the opaque
outcome of the Work Executor (earthaccess login, pull_multi_year_data and
the hourly averaging): ok with the noon-hour numeric map, or error with the
exception message.  oracle gives the outcome of each update_item call in
order (none = success).  now stands for datetime.utcnow().isoformat().
Control flow follows the source: the try block first updates status to
processing, then runs the computation, then writes the completed record; any
exception raised inside the try block, including one raised by an
update_item call itself, reaches the except branch, which writes the failed
record and re-raises. -/
def process_earth_data (st : Store) (job_id : String) (date_str : String)
    (lat : Rat) (lon : Rat) (timezone : String)
    (work : Except String (List (String × Rat))) (now : String)
    (oracle : List (Option String)) : ExecOutcome :=
  match oracle.getD 0 none with
  | some m => recordFailure st job_id m now (oracle.getD 1 none) []
  | none =>
    let st1 := updateItem st job_id (.setStatus "processing")
    let tr1 : List Effect :=
      [.updateItemE job_id (.setStatus "processing"),
        .workCallE ⟨date_str, lat, lon, timezone⟩]
    match work with
    | .error e => recordFailure st1 job_id e now (oracle.getD 1 none) tr1
    | .ok noon =>
      let noonStored := noon.map (fun p => (p.1, floatToDecimalQ p.2))
      match oracle.getD 1 none with
      | some m => recordFailure st1 job_id m now (oracle.getD 2 none) tr1
      | none =>
          ⟨.ok (), updateItem st1 job_id (.setCompleted "completed" noonStored now),
            tr1 ++ [.updateItemE job_id (.setCompleted "completed" noonStored now)]⟩

/-- The response shape of the getEarthAccessJobStatus branch. -/
structure StatusResponse where
  status : Option String
  result : Option (List (String × Rat))
  error : Option String
  createdAt : Option String
  completedAt : Option String
deriving Repr, DecidableEq

/-- The getEarthAccessJobStatus branch of handler (index.py lines 278 to
309): a read of the item under the jobId.  When no item exists it returns a
normal response with status not_found.  When the item exists it returns the
stored attributes, with the result passed through convert_decimals_to_float
(value-preserving, see decimalToFloatQ). -/
def getEarthAccessJobStatus (st : Store) (job_id : String) : StatusResponse :=
  match getItem st job_id with
  | none =>
      { status := some "not_found", result := none,
        error := some "Job not found", createdAt := none, completedAt := none }
  | some item =>
      { status := item.status
        result := item.result.map (fun l => l.map (fun p => (p.1, decimalToFloatQ p.2)))
        error := item.error
        createdAt := item.createdAt
        completedAt := item.completedAt }

/-- The status value a single effect writes for the given job, if any. -/
def Effect.statusWrite (j : String) : Effect → Option String
  | .putItemE j' r => if j' == j then r.status else none
  | .updateItemE j' u => if j' == j then some u.newStatus else none
  | .invokeAsyncE _ => none
  | .workCallE _ => none

/-- The sequence of status values written for the given job along a trace. -/
def statusWritesFor (tr : List Effect) (j : String) : List String :=
  tr.filterMap (fun e => e.statusWrite j)

/-- The two status chains the spec allows a job to move along. -/
def allowedStatusSeq (l : List String) : Prop :=
  List.Sublist l ["pending", "processing", "completed"] ∨
    List.Sublist l ["pending", "processing", "failed"]

instance (l : List String) : Decidable (allowedStatusSeq l) := by
  unfold allowedStatusSeq; infer_instance

/-- The intended protocol for one job: Submit creates the record and
dispatches, then Execute runs once with intact storage. -/
def submitThenExecute (st : Store) (j ds : String) (lat lon : Rat)
    (tz now1 now2 tn : String)
    (work : Except String (List (String × Rat))) : SubmitOutcome × ExecOutcome :=
  let s := startEarthAccessJob st j ⟨some ds, some lat, some lon, some tz⟩ now1 tn
  (s, process_earth_data s.store j ds lat lon tz work now2 [])

/-- The combined effect trace of the one-submit, one-execute run. -/
def singleRunTrace (st : Store) (j ds : String) (lat lon : Rat)
    (tz now1 now2 tn : String)
    (work : Except String (List (String × Rat))) : List Effect :=
  (submitThenExecute st j ds lat lon tz now1 now2 tn work).1.trace ++
    (submitThenExecute st j ds lat lon tz now1 now2 tn work).2.trace

/-- A concrete run in which Execute is dispatched twice for the same job
(the duplicate-dispatch scenario the spec flags as unresolved): the first
execution fails, the second succeeds. -/
def dblSubmit : SubmitOutcome :=
  startEarthAccessJob [] "j1"
    ⟨some "2025-08-01", some 47, some (-122), some "PST"⟩ "t0" "tbl"

/-- First Execute invocation of the duplicate-dispatch run: the Work
Executor fails. -/
def dblExec1 : ExecOutcome :=
  process_earth_data dblSubmit.store "j1" "2025-08-01" 47 (-122) "PST"
    (.error "no data available") "t1" []

/-- Second Execute invocation of the duplicate-dispatch run: the Work
Executor succeeds. -/
def dblExec2 : ExecOutcome :=
  process_earth_data dblExec1.store "j1" "2025-08-01" 47 (-122) "PST"
    (.ok [("T2M", 290)]) "t2" []

/-- The combined effect trace of the duplicate-dispatch run. -/
def dblTrace : List Effect := dblSubmit.trace ++ dblExec1.trace ++ dblExec2.trace

/-- The pending record written by the put_item of startEarthAccessJob. -/
def pendingItem (lat lon : Rat) (ds tz now : String) : JobRecord :=
  { status := some "pending", lat := some lat, long := some lon,
    date := some ds, timezone := some tz, createdAt := some now }

/-- The record-level invariant asserted by C1: result and error are never
populated together; a terminal status has exactly one of them; a pending or
processing status has neither. -/
def resultErrorInvariant (r : JobRecord) : Prop :=
  (r.result = none ∨ r.error = none) ∧
  ((r.status = some "pending" ∨ r.status = some "processing") →
    (r.result = none ∧ r.error = none)) ∧
  ((r.status = some "completed" ∨ r.status = some "failed") →
    ((r.result.isSome = true ∧ r.error = none) ∨
      (r.result = none ∧ r.error.isSome = true)))

/-- The record left by the duplicate-dispatch run. -/
def dblRecord : JobRecord :=
  { status := some "completed", lat := some 47, long := some (-122),
    date := some "2025-08-01", timezone := some "PST", createdAt := some "t0",
    result := some [("T2M", 290)], error := some "no data available",
    completedAt := some "t2" }

/-- The values convert_floats_to_decimal and convert_decimals_to_float walk
over: Python floats and Decimals (each modelled by the exact rational it
denotes, see floatToDecimalQ), strings, dicts and lists.  Other Python
values are inert for both functions and are subsumed by txt. -/
inductive DVal where
  | flt : Rat → DVal
  | dec : Rat → DVal
  | txt : String → DVal
  | dict : List (String × DVal) → DVal
  | arr : List DVal → DVal
deriving Repr

mutual
/-- convert_floats_to_decimal (index.py lines 18 to 26): replaces every
float leaf v by Decimal(str(v)), recursing through dicts and lists;
everything else is returned unchanged. -/
def convert_floats_to_decimal : DVal → DVal
  | .flt q => .dec (floatToDecimalQ q)
  | .dec q => .dec q
  | .txt s => .txt s
  | .dict l => .dict (convert_floats_dictAux l)
  | .arr l => .arr (convert_floats_listAux l)
/-- The dict comprehension of convert_floats_to_decimal. -/
def convert_floats_dictAux : List (String × DVal) → List (String × DVal)
  | [] => []
  | (k, v) :: t => (k, convert_floats_to_decimal v) :: convert_floats_dictAux t
/-- The list comprehension of convert_floats_to_decimal. -/
def convert_floats_listAux : List DVal → List DVal
  | [] => []
  | x :: t => convert_floats_to_decimal x :: convert_floats_listAux t
end

mutual
/-- convert_decimals_to_float (index.py lines 29 to 37): replaces every
Decimal leaf d by float(d), recursing through dicts and lists; everything
else is returned unchanged. -/
def convert_decimals_to_float : DVal → DVal
  | .flt q => .flt q
  | .dec q => .flt (decimalToFloatQ q)
  | .txt s => .txt s
  | .dict l => .dict (convert_decimals_dictAux l)
  | .arr l => .arr (convert_decimals_listAux l)
/-- The dict comprehension of convert_decimals_to_float. -/
def convert_decimals_dictAux : List (String × DVal) → List (String × DVal)
  | [] => []
  | (k, v) :: t => (k, convert_decimals_to_float v) :: convert_decimals_dictAux t
/-- The list comprehension of convert_decimals_to_float. -/
def convert_decimals_listAux : List DVal → List DVal
  | [] => []
  | x :: t => convert_decimals_to_float x :: convert_decimals_listAux t
end

mutual
/-- Whether a value contains only float leaves (no Decimal), which is the
shape of every value the Work Executor produces. -/
def floatOnly : DVal → Bool
  | .flt _ => true
  | .dec _ => false
  | .txt _ => true
  | .dict l => floatOnlyDict l
  | .arr l => floatOnlyList l
/-- floatOnly on the entries of a dict. -/
def floatOnlyDict : List (String × DVal) → Bool
  | [] => true
  | (_, v) :: t => floatOnly v && floatOnlyDict t
/-- floatOnly on the elements of a list. -/
def floatOnlyList : List DVal → Bool
  | [] => true
  | x :: t => floatOnly x && floatOnlyList t
end

/-- The structure of a value with leaf contents erased: what it means for
the conversions to preserve nesting of dicts and lists. -/
inductive VShape where
  | leaf : VShape
  | dict : List (String × VShape) → VShape
  | arr : List VShape → VShape
deriving Repr

mutual
/-- The structure of a value: dict keys and list positions, leaves erased. -/
def shapeOf : DVal → VShape
  | .flt _ => .leaf
  | .dec _ => .leaf
  | .txt _ => .leaf
  | .dict l => .dict (shapeOfDict l)
  | .arr l => .arr (shapeOfList l)
/-- shapeOf on the entries of a dict. -/
def shapeOfDict : List (String × DVal) → List (String × VShape)
  | [] => []
  | (k, v) :: t => (k, shapeOf v) :: shapeOfDict t
/-- shapeOf on the elements of a list. -/
def shapeOfList : List DVal → List VShape
  | [] => []
  | x :: t => shapeOf x :: shapeOfList t
end

/-- The Gregorian leap year rule used by datetime.date. -/
def isLeap (y : Int) : Bool :=
  y % 4 == 0 && (y % 100 != 0 || y % 400 == 0)

/-- Days of a month of a year, as datetime.date validates them. -/
def daysInMonth (y : Int) (m : Nat) : Nat :=
  if m = 2 then (if isLeap y then 29 else 28)
  else if m = 4 ∨ m = 6 ∨ m = 9 ∨ m = 11 then 30
  else 31

/-- Whether datetime.date(y, m, d) constructs rather than raising
ValueError: datetime bounds the year to 1..9999 and the day to the length
of the month. -/
def validDate (y : Int) (m d : Nat) : Bool :=
  decide (1 ≤ y) && decide (y ≤ 9999) && decide (1 ≤ m) && decide (m ≤ 12) &&
    decide (1 ≤ d) && decide (d ≤ daysInMonth y m)

/-- Little endian decimal digits with explicit fuel, so that terms reduce in
the kernel. -/
def digitsAux : Nat → Nat → List Nat
  | 0, _ => []
  | fuel + 1, n => if n = 0 then [] else n % 10 :: digitsAux fuel (n / 10)

/-- The decimal digit characters of n, most significant first. -/
def natChars (n : Nat) : List Char :=
  ((digitsAux n n).reverse).map (fun d => Char.ofNat (48 + d))

/-- Zero padding to width w, as the %Y, %m and %d directives of strftime
produce. -/
def padChars (w : Nat) (n : Nat) : List Char :=
  List.replicate (w - (natChars n).length) '0' ++ natChars n

/-- strftime("%Y-%m-%d") of date(y, m, d); only applied at years 1..9999. -/
def fmtDate (y : Int) (m d : Nat) : String :=
  String.mk (padChars 4 y.toNat ++ '-' :: (padChars 2 m ++ '-' :: padChars 2 d))

/-- The numeric value of a big endian list of digit characters. -/
def valBE (l : List Char) : Nat :=
  l.foldl (fun a c => 10 * a + (c.toNat - 48)) 0

/-- datetime.strptime(s, "%Y-%m-%d") restricted to the canonical zero padded
form YYYY-MM-DD (the form the claim quantifies over); date validity is
checked at the date() construction modelled in generate_date_range. -/
def parseDate (s : String) : Option (Nat × Nat × Nat) :=
  match s.data with
  | [a, b, c, d, s1, e, f, s2, g, h] =>
      if (s1 == '-') && (s2 == '-') && [a, b, c, d, e, f, g, h].all Char.isDigit then
        some (valBE [a, b, c, d], valBE [e, f], valBE [g, h])
      else none
  | _ => none

/-- The loop of generate_date_range: for each year of
range(year - years_back, year), keep the date when date(yr, month, day)
constructs, formatted, in loop order. -/
def expectedDates (y : Int) (m d : Nat) (n : Nat) : List String :=
  ((List.range n).map (fun i : Nat => y - n + i)).filterMap
    (fun yr => if validDate yr m d then some (fmtDate yr m d) else none)

/-- generate_date_range (index.py lines 77 to 96): parses the input date,
then walks the years from year - years_back up to year - 1, skipping those
in which the month/day combination raises ValueError. -/
def generate_date_range (date_str : String) (years_back : Nat) : Option (List String) :=
  match parseDate date_str with
  | none => none
  | some (yy, mm, dd) =>
      if validDate (yy : Int) mm dd then
        some (expectedDates (yy : Int) mm dd years_back)
      else none

/-- The year component of a formatted date string, through parseDate. -/
def yearOfDateStr (s : String) : Int :=
  match parseDate s with
  | some p => (p.1 : Int)
  | none => 0

/-- The value of a little endian digit list. -/
def valLE (l : List Nat) : Nat :=
  l.foldr (fun d a => 10 * a + d) 0

/-! ## Lemmas and claim theorems -/

theorem getItem_putItem_self (st : Store) (k : String) (r : JobRecord) :
    getItem (putItem st k r) k = some r := by
  simp [getItem, putItem, List.find?_cons]

theorem find?_filter_ne (st : Store) (k k' : String) (h : k' ≠ k) :
    (st.filter (fun p => p.1 != k)).find? (fun p => p.1 == k') =
      st.find? (fun p => p.1 == k') := by
  induction st with
  | nil => rfl
  | cons a t ih =>
    by_cases ha : a.1 = k
    · have h1 : (a.1 != k) = false := by simp [ha]
      have h2 : (a.1 == k') = false := by simp [ha]; exact fun hc => h hc.symm
      simp [List.filter_cons, h1, List.find?_cons, h2, ih]
    · have h1 : (a.1 != k) = true := by simp [ha]
      simp only [List.filter_cons, h1, if_true]
      rw [List.find?_cons, List.find?_cons]
      cases hk : (a.1 == k') <;> simp [hk, ih]
  

theorem getItem_putItem_ne (st : Store) (k k' : String) (r : JobRecord)
    (h : k' ≠ k) : getItem (putItem st k r) k' = getItem st k' := by
  have h2 : (k == k') = false := by simp; exact fun hc => h hc.symm
  simp [getItem, putItem, List.find?_cons, h2, find?_filter_ne st k k' h]

theorem getItem_updateItem_self (st : Store) (k : String) (u : UpdateSpec) :
    getItem (updateItem st k u) k =
      some (applyUpdate u ((getItem st k).getD {})) := by
  unfold updateItem
  cases h : getItem st k <;> simp [h, getItem_putItem_self]

theorem getItem_updateItem_ne (st : Store) (k k' : String) (u : UpdateSpec)
    (h : k' ≠ k) : getItem (updateItem st k u) k' = getItem st k' := by
  unfold updateItem
  cases getItem st k <;> simp [getItem_putItem_ne _ _ _ _ h]

/-- C3: for every complete submission input, startEarthAccessJob returns the
generated id, its trace is exactly one durable put of a pending record with a
createdAt timestamp and no result or error, followed (strictly later) by one
asynchronous dispatch invocation; the record is visible in the store under
the id, every other key of the store is untouched, and no Work Executor call
occurs in the trace. -/
theorem c3_submit_spec (st : Store) (j date_str : String) (lat lon : Rat)
    (tz now tn : String) :
    let s := startEarthAccessJob st j ⟨some date_str, some lat, some lon, some tz⟩ now tn
    let item : JobRecord :=
      { status := some "pending", lat := some lat, long := some lon,
        date := some date_str, timezone := some tz, createdAt := some now }
    s.ret = .ok j ∧
    s.trace = [.putItemE j item, .invokeAsyncE ⟨true, j, date_str, lat, lon, tz, tn⟩] ∧
    getItem s.store j = some item ∧
    item.status = some "pending" ∧ item.createdAt = some now ∧
    item.result = none ∧ item.error = none ∧
    (∀ k, k ≠ j → getItem s.store k = getItem st k) ∧
    (∀ p, Effect.workCallE p ∉ s.trace) := by
  refine ⟨rfl, rfl, getItem_putItem_self .., rfl, rfl, rfl, rfl,
    fun k hk => getItem_putItem_ne _ _ _ _ hk, fun p hp => ?_⟩
  simp [startEarthAccessJob] at hp

/-- Witness for c3_submit_spec at a concrete submission. -/
theorem c3_witness :
    (startEarthAccessJob [] "j1" ⟨some "2025-08-01", some 47, some (-122), some "PST"⟩
      "t0" "tbl").ret = .ok "j1" ∧
    getItem (startEarthAccessJob [] "j1"
      ⟨some "2025-08-01", some 47, some (-122), some "PST"⟩ "t0" "tbl").store "other" =
      getItem ([] : Store) "other" := by
  obtain ⟨h1, _, _, _, _, _, _, h8, _⟩ :=
    c3_submit_spec [] "j1" "2025-08-01" 47 (-122) "PST" "t0" "tbl"
  exact ⟨h1, h8 "other" (by decide)⟩

/-- C8: a submission missing one of the required fields date, lat, long,
timezone raises a KeyError to the caller before any durable write: the store
is unchanged and the trace is empty. -/
theorem c8_missing_field (st : Store) (j : String) (args : Args)
    (now tn : String)
    (h : args.date = none ∨ args.lat = none ∨ args.long = none ∨
      args.timezone = none) :
    let s := startEarthAccessJob st j args now tn
    (∃ msg, s.ret = .error msg) ∧ s.store = st ∧ s.trace = [] := by
  rcases args with ⟨_ | d, _ | la, _ | lo, _ | tz⟩ <;>
    first
      | exact ⟨⟨_, rfl⟩, rfl, rfl⟩
      | simp_all

/-- Witness for c8_missing_field at a concrete input with no date field. -/
theorem c8_witness :
    (startEarthAccessJob [] "j" ⟨none, some 1, some 2, some "z"⟩ "t" "tb").store =
      ([] : Store) ∧
    (startEarthAccessJob [] "j" ⟨none, some 1, some 2, some "z"⟩ "t" "tb").trace = [] := by
  obtain ⟨_, h2, h3⟩ :=
    c8_missing_field [] "j" ⟨none, some 1, some 2, some "z"⟩ "t" "tb" (Or.inl rfl)
  exact ⟨h2, h3⟩

/-- C6: getEarthAccessJobStatus on a jobId with no stored record returns a
normal response whose status is not_found, a value distinct from the four
job states; no exception is involved (the branch returns a value). -/
theorem c6_not_found (st : Store) (j : String) (h : getItem st j = none) :
    getEarthAccessJobStatus st j =
      { status := some "not_found", result := none,
        error := some "Job not found", createdAt := none, completedAt := none } ∧
    ∀ s ∈ ["pending", "processing", "completed", "failed"],
      (getEarthAccessJobStatus st j).status ≠ some s := by
  have he : getEarthAccessJobStatus st j =
      { status := some "not_found", result := none,
        error := some "Job not found", createdAt := none, completedAt := none } := by
    simp [getEarthAccessJobStatus, h]
  refine ⟨he, fun s hs => ?_⟩
  rw [he]
  fin_cases hs <;> simp

/-- Witness for c6_not_found on the empty store. -/
theorem c6_witness :
    getEarthAccessJobStatus [] "does-not-exist" =
      { status := some "not_found", result := none,
        error := some "Job not found", createdAt := none, completedAt := none } ∧
    (getEarthAccessJobStatus [] "does-not-exist").status ≠ some "pending" := by
  obtain ⟨h1, h2⟩ := c6_not_found [] "does-not-exist" rfl
  exact ⟨h1, h2 "pending" (by decide)⟩

/-- C7: the first step of process_earth_data is the update_item that SETs
only the status attribute to processing: it is the head of the trace, and
applying it to the stored record changes status and leaves result, error,
createdAt and all parameter attributes exactly as they were. -/
theorem c7_processing_frame (st : Store) (j ds : String) (lat lon : Rat)
    (tz : String) (work : Except String (List (String × Rat))) (now : String)
    (r : JobRecord) (h : getItem st j = some r) :
    (process_earth_data st j ds lat lon tz work now []).trace.head? =
      some (.updateItemE j (.setStatus "processing")) ∧
    getItem (updateItem st j (.setStatus "processing")) j =
      some { r with status := some "processing" } ∧
    (applyUpdate (.setStatus "processing") r).status = some "processing" ∧
    (applyUpdate (.setStatus "processing") r).result = r.result ∧
    (applyUpdate (.setStatus "processing") r).error = r.error ∧
    (applyUpdate (.setStatus "processing") r).createdAt = r.createdAt ∧
    (applyUpdate (.setStatus "processing") r).completedAt = r.completedAt ∧
    (applyUpdate (.setStatus "processing") r).lat = r.lat ∧
    (applyUpdate (.setStatus "processing") r).long = r.long ∧
    (applyUpdate (.setStatus "processing") r).date = r.date ∧
    (applyUpdate (.setStatus "processing") r).timezone = r.timezone := by
  refine ⟨?_, ?_, rfl, rfl, rfl, rfl, rfl, rfl, rfl, rfl, rfl⟩
  · cases work <;> rfl
  · rw [getItem_updateItem_self, h]
    rfl

/-- Witness for c7_processing_frame on a concrete store holding a pending
record. -/
theorem c7_witness :
    getItem (updateItem [("j", { status := some "pending", createdAt := some "t0" })]
      "j" (.setStatus "processing")) "j" =
      some { status := some "processing", createdAt := some "t0" } := by
  obtain ⟨_, h2, _⟩ :=
    c7_processing_frame [("j", { status := some "pending", createdAt := some "t0" })]
      "j" "d" 1 2 "z" (.ok []) "t1" { status := some "pending", createdAt := some "t0" } rfl
  exact h2

/-- C4: when the Work Executor fails during process_earth_data (with intact
storage, the empty oracle), the stored record is rewritten by one single
update_item that SETs status failed, the error message of the failure and a
completedAt timestamp, the failure is re-raised to the caller, and the Work
Executor was invoked exactly once (no internal retry). -/
theorem c4_failure_recording (st : Store) (j ds : String) (lat lon : Rat)
    (tz e now : String) :
    let x := process_earth_data st j ds lat lon tz (.error e) now []
    x.outcome = .error e ∧
    x.trace = [.updateItemE j (.setStatus "processing"),
      .workCallE ⟨ds, lat, lon, tz⟩,
      .updateItemE j (.setFailed "failed" e now)] ∧
    (x.trace.filter (fun eff => match eff with
      | .workCallE _ => true | _ => false)).length = 1 ∧
    getItem x.store j =
      some (applyUpdate (.setFailed "failed" e now)
        (applyUpdate (.setStatus "processing") ((getItem st j).getD {}))) ∧
    (∀ r : JobRecord, (applyUpdate (.setFailed "failed" e now) r).status = some "failed" ∧
      (applyUpdate (.setFailed "failed" e now) r).error = some e ∧
      (applyUpdate (.setFailed "failed" e now) r).completedAt = some now) := by
  refine ⟨rfl, rfl, rfl, ?_, fun r => ⟨rfl, rfl, rfl⟩⟩
  show getItem (updateItem (updateItem st j (.setStatus "processing")) j
    (.setFailed "failed" e now)) j = _
  rw [getItem_updateItem_self, getItem_updateItem_self]
  rfl

/-- Witness for c4_failure_recording at a concrete failing execution. -/
theorem c4_witness :
    (process_earth_data [("j2", { status := some "pending" })] "j2" "d" 1 2 "z"
      (.error "no data available") "t1" []).outcome = .error "no data available" ∧
    (applyUpdate (.setFailed "failed" "no data available" "t1")
      { status := some "pending" }).error = some "no data available" := by
  obtain ⟨h1, _, _, _, h5⟩ :=
    c4_failure_recording [("j2", { status := some "pending" })] "j2" "d" 1 2 "z"
      "no data available" "t1"
  exact ⟨h1, (h5 { status := some "pending" }).2.1⟩

/-- C2 (amended): when Execute is invoked at most once for the job, the
sequence of status values written for it is exactly pending, processing,
completed (work succeeded) or pending, processing, failed (work failed), so
it and every sampled subsequence of it (what repeated GetStatus calls can
observe) lie along one of the two allowed chains.  The unamended claim,
which extends this to repeated Execute invocations, is refuted by
c2_cex. -/
theorem c2_status_monotone (st : Store) (j ds : String) (lat lon : Rat)
    (tz now1 now2 tn : String) (work : Except String (List (String × Rat)))
    (obs : List String)
    (hobs : List.Sublist obs
      (statusWritesFor (singleRunTrace st j ds lat lon tz now1 now2 tn work) j)) :
    allowedStatusSeq
      (statusWritesFor (singleRunTrace st j ds lat lon tz now1 now2 tn work) j) ∧
    allowedStatusSeq obs := by
  have hw : statusWritesFor (singleRunTrace st j ds lat lon tz now1 now2 tn work) j =
      ["pending", "processing",
        match work with | .ok _ => "completed" | .error _ => "failed"] := by
    cases work <;>
      simp [singleRunTrace, submitThenExecute, startEarthAccessJob,
        process_earth_data, recordFailure, statusWritesFor, Effect.statusWrite,
        UpdateSpec.newStatus]
  rw [hw] at hobs ⊢
  cases work with
  | ok _ => exact ⟨Or.inl (List.Sublist.refl _), Or.inl hobs⟩
  | error _ => exact ⟨Or.inr (List.Sublist.refl _), Or.inr hobs⟩

/-- Witness for c2_status_monotone: a sampled observation of a concrete
completed run. -/
theorem c2_witness : allowedStatusSeq ["pending", "completed"] :=
  (c2_status_monotone [] "j1" "d" 1 2 "z" "t0" "t1" "tb" (.ok [("T2M", 290)])
    ["pending", "completed"] (by decide)).2

/-- Counterexample to C2 as stated: under a repeated invocation of Execute
for the same jobId, the written status sequence regresses from failed back
to processing, which lies along neither allowed chain. -/
theorem c2_cex :
    statusWritesFor dblTrace "j1" =
      ["pending", "processing", "failed", "processing", "completed"] ∧
    ¬ allowedStatusSeq (statusWritesFor dblTrace "j1") := by
  exact ⟨by decide, by decide⟩

/-- C1 (amended): along the intended one-submit, one-execute run the job
record satisfies the result/error invariant at every stage: after the put
of the pending record, after the update to processing, and after the
terminal update.  The unamended claim, which quantifies over every record
reachable through the operations including a repeated Execute, is refuted
by c1_cex. -/
theorem c1_result_error_invariant (st : Store) (j ds : String) (lat lon : Rat)
    (tz now1 now2 tn : String) (work : Except String (List (String × Rat))) :
    (∀ r, getItem (submitThenExecute st j ds lat lon tz now1 now2 tn work).1.store j =
      some r → resultErrorInvariant r) ∧
    (∀ r, getItem (updateItem
        (submitThenExecute st j ds lat lon tz now1 now2 tn work).1.store j
        (.setStatus "processing")) j = some r → resultErrorInvariant r) ∧
    (∀ r, getItem (submitThenExecute st j ds lat lon tz now1 now2 tn work).2.store j =
      some r → resultErrorInvariant r) := by
  refine ⟨?_, ?_, ?_⟩
  · intro r hr
    rw [show (submitThenExecute st j ds lat lon tz now1 now2 tn work).1.store =
        putItem st j (pendingItem lat lon ds tz now1) from rfl,
      getItem_putItem_self] at hr
    cases hr
    simp [resultErrorInvariant, pendingItem]
  · intro r hr
    rw [show (submitThenExecute st j ds lat lon tz now1 now2 tn work).1.store =
        putItem st j (pendingItem lat lon ds tz now1) from rfl,
      getItem_updateItem_self, getItem_putItem_self] at hr
    cases hr
    simp [resultErrorInvariant, applyUpdate, pendingItem]
  · intro r hr
    cases work with
    | ok noon =>
      rw [show (submitThenExecute st j ds lat lon tz now1 now2 tn (.ok noon)).2.store =
          updateItem (updateItem (putItem st j (pendingItem lat lon ds tz now1))
            j (.setStatus "processing")) j
            (.setCompleted "completed" (noon.map (fun p => (p.1, floatToDecimalQ p.2))) now2)
          from rfl,
        getItem_updateItem_self, getItem_updateItem_self, getItem_putItem_self] at hr
      cases hr
      simp [resultErrorInvariant, applyUpdate, pendingItem]
    | error e =>
      rw [show (submitThenExecute st j ds lat lon tz now1 now2 tn (.error e)).2.store =
          updateItem (updateItem (putItem st j (pendingItem lat lon ds tz now1))
            j (.setStatus "processing")) j (.setFailed "failed" e now2)
          from rfl,
        getItem_updateItem_self, getItem_updateItem_self, getItem_putItem_self] at hr
      cases hr
      simp [resultErrorInvariant, applyUpdate, pendingItem]

/-- Witness for c1_result_error_invariant: the final record of a concrete
completed run satisfies the invariant. -/
theorem c1_witness :
    resultErrorInvariant
      { status := some "completed", lat := some 1, long := some 2,
        date := some "d", timezone := some "z", createdAt := some "t0",
        result := some [("T2M", 290)], completedAt := some "t1" } :=
  (c1_result_error_invariant [] "j1" "d" 1 2 "z" "t0" "t1" "tb"
    (.ok [("T2M", 290)])).2.2 _ (by decide)

/-- Counterexample to C1 as stated: after a failed Execute followed by a
successful re-invocation, the stored record has status completed with both
result and a stale error populated, because the completed update never
removes the error attribute. -/
theorem c1_cex :
    getItem dblExec2.store "j1" = some dblRecord ∧
    dblRecord.status = some "completed" ∧
    dblRecord.result.isSome = true ∧ dblRecord.error.isSome = true := by
  exact ⟨by decide, rfl, rfl, rfl⟩

/-- C9 (amended): an infrastructure failure inside the processing block of
process_earth_data does not propagate silently: the except branch catches it
and, when the failure-recording write succeeds, rewrites the record to
status failed with the storage error message before re-raising; only when
the recording write itself also fails does the failure propagate with no
durable trace.  The unamended claim, under which a storage failure leaves no
durable trace and never rewrites the record to failed, is refuted by
c9_cex. -/
theorem c9_storage_failure_recorded (st : Store) (j ds : String)
    (lat lon : Rat) (tz : String) (work : Except String (List (String × Rat)))
    (now m m2 : String) :
    ((process_earth_data st j ds lat lon tz work now [some m]).outcome = .error m ∧
      getItem (process_earth_data st j ds lat lon tz work now [some m]).store j =
        some (applyUpdate (.setFailed "failed" m now) ((getItem st j).getD {})) ∧
      statusWritesFor (process_earth_data st j ds lat lon tz work now [some m]).trace j =
        ["failed"]) ∧
    ((process_earth_data st j ds lat lon tz work now [some m, some m2]).outcome =
        .error m2 ∧
      (process_earth_data st j ds lat lon tz work now [some m, some m2]).store = st ∧
      (process_earth_data st j ds lat lon tz work now [some m, some m2]).trace = []) := by
  refine ⟨⟨rfl, ?_, ?_⟩, rfl, rfl, rfl⟩
  · show getItem (updateItem st j _) j = _
    rw [getItem_updateItem_self]
  · simp [process_earth_data, statusWritesFor, recordFailure, Effect.statusWrite,
      UpdateSpec.newStatus]

/-- Counterexample to C9 as stated: a pure storage failure of the first
update_item is caught and durably recorded: the record is rewritten to
status failed with the storage error message, contradicting the claim that
a storage failure during Execute never rewrites the record to failed. -/
theorem c9_cex :
    (process_earth_data [("j2", { status := some "pending", createdAt := some "t0" })]
      "j2" "d" 1 2 "z" (.ok [("T2M", 290)]) "t1"
      [some "DynamoDB update failed", none]).outcome = .error "DynamoDB update failed" ∧
    getItem (process_earth_data
      [("j2", { status := some "pending", createdAt := some "t0" })]
      "j2" "d" 1 2 "z" (.ok [("T2M", 290)]) "t1"
      [some "DynamoDB update failed", none]).store "j2" =
      some { status := some "failed", createdAt := some "t0",
             error := some "DynamoDB update failed", completedAt := some "t1" } := by
  exact ⟨rfl, by decide⟩

mutual
theorem roundtrip_val (t : DVal) (h : floatOnly t = true) :
    convert_decimals_to_float (convert_floats_to_decimal t) = t := by
  match t with
  | .flt q => rfl
  | .dec q => simp [floatOnly] at h
  | .txt s => rfl
  | .dict l =>
      simp only [convert_floats_to_decimal, convert_decimals_to_float]
      rw [roundtrip_dict l (by simpa [floatOnly] using h)]
  | .arr l =>
      simp only [convert_floats_to_decimal, convert_decimals_to_float]
      rw [roundtrip_list l (by simpa [floatOnly] using h)]
theorem roundtrip_dict (l : List (String × DVal)) (h : floatOnlyDict l = true) :
    convert_decimals_dictAux (convert_floats_dictAux l) = l := by
  match l with
  | [] => rfl
  | (k, v) :: t =>
      simp only [floatOnlyDict, Bool.and_eq_true] at h
      simp only [convert_floats_dictAux, convert_decimals_dictAux]
      rw [roundtrip_val v h.1, roundtrip_dict t h.2]
theorem roundtrip_list (l : List DVal) (h : floatOnlyList l = true) :
    convert_decimals_listAux (convert_floats_listAux l) = l := by
  match l with
  | [] => rfl
  | x :: t =>
      simp only [floatOnlyList, Bool.and_eq_true] at h
      simp only [convert_floats_listAux, convert_decimals_listAux]
      rw [roundtrip_val x h.1, roundtrip_list t h.2]
end

mutual
theorem shape_floats_val (t : DVal) :
    shapeOf (convert_floats_to_decimal t) = shapeOf t := by
  match t with
  | .flt q => rfl
  | .dec q => rfl
  | .txt s => rfl
  | .dict l =>
      simp only [convert_floats_to_decimal, shapeOf]
      rw [shape_floats_dict l]
  | .arr l =>
      simp only [convert_floats_to_decimal, shapeOf]
      rw [shape_floats_list l]
theorem shape_floats_dict (l : List (String × DVal)) :
    shapeOfDict (convert_floats_dictAux l) = shapeOfDict l := by
  match l with
  | [] => rfl
  | (k, v) :: t =>
      simp only [convert_floats_dictAux, shapeOfDict]
      rw [shape_floats_val v, shape_floats_dict t]
theorem shape_floats_list (l : List DVal) :
    shapeOfList (convert_floats_listAux l) = shapeOfList l := by
  match l with
  | [] => rfl
  | x :: t =>
      simp only [convert_floats_listAux, shapeOfList]
      rw [shape_floats_val x, shape_floats_list t]
end

mutual
theorem shape_decimals_val (t : DVal) :
    shapeOf (convert_decimals_to_float t) = shapeOf t := by
  match t with
  | .flt q => rfl
  | .dec q => rfl
  | .txt s => rfl
  | .dict l =>
      simp only [convert_decimals_to_float, shapeOf]
      rw [shape_decimals_dict l]
  | .arr l =>
      simp only [convert_decimals_to_float, shapeOf]
      rw [shape_decimals_list l]
theorem shape_decimals_dict (l : List (String × DVal)) :
    shapeOfDict (convert_decimals_dictAux l) = shapeOfDict l := by
  match l with
  | [] => rfl
  | (k, v) :: t =>
      simp only [convert_decimals_dictAux, shapeOfDict]
      rw [shape_decimals_val v, shape_decimals_dict t]
theorem shape_decimals_list (l : List DVal) :
    shapeOfList (convert_decimals_listAux l) = shapeOfList l := by
  match l with
  | [] => rfl
  | x :: t =>
      simp only [convert_decimals_listAux, shapeOfList]
      rw [shape_decimals_val x, shape_decimals_list t]
end

/-- C5: for every value made of float leaves (what the Work Executor
produces), storing it through convert_floats_to_decimal, whose float leaves
go through Decimal(str(v)), and reading it back through
convert_decimals_to_float yields the value back with the same numbers, and
both conversions preserve the structure of nested dicts and lists.  The
numeric leaf codec is value-preserving (floatToDecimalQ, decimalToFloatQ),
which encodes the documented Python guarantee
float(Decimal(str(v))) == v. -/
theorem c5_decimal_roundtrip :
    (∀ q : Rat, decimalToFloatQ (floatToDecimalQ q) = q) ∧
    (∀ t, floatOnly t = true →
      convert_decimals_to_float (convert_floats_to_decimal t) = t) ∧
    (∀ t, shapeOf (convert_floats_to_decimal t) = shapeOf t) ∧
    (∀ t, shapeOf (convert_decimals_to_float t) = shapeOf t) :=
  ⟨fun _ => rfl, roundtrip_val, shape_floats_val, shape_decimals_val⟩

/-- Witness for c5_decimal_roundtrip at a concrete nested value with
fractional numeric leaves. -/
theorem c5_witness :
    floatOnly (.dict [("T2M", .flt (29012 / 100)),
      ("hours", .arr [.flt 1, .flt (3 / 2)])]) = true ∧
    convert_decimals_to_float (convert_floats_to_decimal
      (.dict [("T2M", .flt (29012 / 100)), ("hours", .arr [.flt 1, .flt (3 / 2)])])) =
      .dict [("T2M", .flt (29012 / 100)), ("hours", .arr [.flt 1, .flt (3 / 2)])] :=
  ⟨rfl, c5_decimal_roundtrip.2.1 _ rfl⟩

theorem valLE_digitsAux : ∀ (fuel n : Nat), n ≤ fuel → valLE (digitsAux fuel n) = n := by
  intro fuel
  induction fuel with
  | zero =>
    intro n hn
    interval_cases n
    rfl
  | succ f ih =>
    intro n hn
    by_cases h0 : n = 0
    · subst h0
      simp [digitsAux, valLE]
    · have hdle : n / 10 ≤ f := by omega
      simp only [digitsAux, if_neg h0, valLE, List.foldr_cons]
      have := ih (n / 10) hdle
      simp only [valLE] at this
      rw [this]
      omega

theorem digitsAux_lt : ∀ (fuel n : Nat), ∀ d ∈ digitsAux fuel n, d < 10 := by
  intro fuel
  induction fuel with
  | zero => simp [digitsAux]
  | succ f ih =>
    intro n d hd
    by_cases h0 : n = 0
    · subst h0
      simp [digitsAux] at hd
    · simp only [digitsAux, if_neg h0, List.mem_cons] at hd
      rcases hd with h | h
      · subst h
        exact Nat.mod_lt _ (by norm_num)
      · exact ih _ _ h

theorem digitsAux_length : ∀ (fuel n k : Nat), n ≤ fuel → n < 10 ^ k →
    (digitsAux fuel n).length ≤ k := by
  intro fuel
  induction fuel with
  | zero =>
    intro n k h1 h2
    interval_cases n
    simp [digitsAux]
  | succ f ih =>
    intro n k h1 h2
    by_cases h0 : n = 0
    · subst h0
      simp [digitsAux]
    · cases k with
      | zero =>
        simp at h2
        omega
      | succ k' =>
        simp only [digitsAux, if_neg h0, List.length_cons]
        have hlt : n < 10 ^ k' * 10 := by
          rw [← pow_succ]
          exact h2
        have hdiv : n / 10 < 10 ^ k' := by omega
        have := ih (n / 10) k' (by omega) hdiv
        omega

theorem valBE_zeros : ∀ (k : Nat) (l : List Char),
    valBE (List.replicate k '0' ++ l) = valBE l := by
  intro k l
  induction k with
  | zero => rfl
  | succ k' ih =>
    simp only [List.replicate_succ, List.cons_append, valBE, List.foldl_cons]
    have h1 : 10 * 0 + (('0' : Char).toNat - 48) = 0 := rfl
    rw [h1]
    simpa [valBE] using ih

theorem valBE_natChars (n : Nat) : valBE (natChars n) = n := by
  rw [natChars, valBE, List.foldl_map, List.foldl_reverse]
  have hchr : ∀ d, d < 10 → ((Char.ofNat (48 + d)).toNat - 48) = d := by
    intro d hd
    interval_cases d <;> rfl
  have key : ∀ l : List Nat, (∀ d ∈ l, d < 10) →
      List.foldr (fun x y => 10 * y + ((Char.ofNat (48 + x)).toNat - 48)) 0 l = valLE l := by
    intro l hl
    induction l with
    | nil => rfl
    | cons d t ih =>
      simp only [List.foldr_cons, valLE]
      rw [ih (fun x hx => hl x (List.mem_cons_of_mem _ hx)),
        hchr d (hl d (List.mem_cons_self _ _))]
      simp [valLE]
  rw [key _ (digitsAux_lt n n), valLE_digitsAux n n le_rfl]

theorem valBE_padChars (w n : Nat) : valBE (padChars w n) = n := by
  rw [padChars, valBE_zeros, valBE_natChars]

theorem length_padChars (w n : Nat) (h : n < 10 ^ w) : (padChars w n).length = w := by
  have hlen : (natChars n).length ≤ w := by
    rw [natChars, List.length_map, List.length_reverse]
    exact digitsAux_length n n w le_rfl h
  rw [padChars, List.length_append, List.length_replicate]
  omega

theorem padChars_digits (w n : Nat) : ∀ c ∈ padChars w n, c.isDigit = true := by
  intro c hc
  rw [padChars, List.mem_append] at hc
  rcases hc with h | h
  · rw [List.eq_of_mem_replicate h]
    decide
  · rw [natChars, List.mem_map] at h
    obtain ⟨d, hd, rfl⟩ := h
    have : d < 10 := digitsAux_lt n n d (List.mem_reverse.mp hd)
    interval_cases d <;> decide

theorem length_eq_four {α : Type} (l : List α) (h : l.length = 4) :
    ∃ a b c d, l = [a, b, c, d] := by
  rcases l with _ | ⟨a, l⟩
  · simp at h
  rcases l with _ | ⟨b, l⟩
  · simp at h
  rcases l with _ | ⟨c, l⟩
  · simp at h
  rcases l with _ | ⟨d, l⟩
  · simp at h
  rcases l with _ | ⟨e, l⟩
  · exact ⟨a, b, c, d, rfl⟩
  · simp at h

theorem length_eq_two {α : Type} (l : List α) (h : l.length = 2) :
    ∃ a b, l = [a, b] := by
  rcases l with _ | ⟨a, l⟩
  · simp at h
  rcases l with _ | ⟨b, l⟩
  · simp at h
  rcases l with _ | ⟨c, l⟩
  · exact ⟨a, b, rfl⟩
  · simp at h

theorem parseDate_mk (a b c d s1 e f s2 g h : Char) :
    parseDate (String.mk [a, b, c, d, s1, e, f, s2, g, h]) =
      (if (s1 == '-') && (s2 == '-') && [a, b, c, d, e, f, g, h].all Char.isDigit then
        some (valBE [a, b, c, d], valBE [e, f], valBE [g, h])
      else none) := rfl

theorem parseDate_fmtDate (y m d : Nat) (hy1 : 1 ≤ y) (hy : y < 10000)
    (hm : m < 100) (hd : d < 100) :
    parseDate (fmtDate (y : Int) m d) = some (y, m, d) := by
  have htn : ((y : Int)).toNat = y := by omega
  have h4 : (padChars 4 y).length = 4 := length_padChars 4 y (by norm_num; omega)
  have h2m : (padChars 2 m).length = 2 := length_padChars 2 m (by norm_num; omega)
  have h2d : (padChars 2 d).length = 2 := length_padChars 2 d (by norm_num; omega)
  obtain ⟨a, b, c, d4, hp4⟩ := length_eq_four _ h4
  obtain ⟨e, f, hp2m⟩ := length_eq_two _ h2m
  obtain ⟨g, h8, hp2d⟩ := length_eq_two _ h2d
  have hstr : fmtDate (y : Int) m d =
      String.mk [a, b, c, d4, '-', e, f, '-', g, h8] := by
    show String.mk (padChars 4 ((y : Int)).toNat ++
      '-' :: (padChars 2 m ++ '-' :: padChars 2 d)) = _
    rw [htn, hp4, hp2m, hp2d]
    rfl
  have hdig : [a, b, c, d4, e, f, g, h8].all Char.isDigit = true := by
    have ha := padChars_digits 4 y a (by rw [hp4]; simp)
    have hb := padChars_digits 4 y b (by rw [hp4]; simp)
    have hc := padChars_digits 4 y c (by rw [hp4]; simp)
    have hd4 := padChars_digits 4 y d4 (by rw [hp4]; simp)
    have he := padChars_digits 2 m e (by rw [hp2m]; simp)
    have hf := padChars_digits 2 m f (by rw [hp2m]; simp)
    have hg := padChars_digits 2 d g (by rw [hp2d]; simp)
    have hh := padChars_digits 2 d h8 (by rw [hp2d]; simp)
    simp [ha, hb, hc, hd4, he, hf, hg, hh]
  rw [hstr, parseDate_mk]
  rw [show ((('-' : Char) == '-') && (('-' : Char) == '-') &&
      [a, b, c, d4, e, f, g, h8].all Char.isDigit) = true by simp [hdig]]
  rw [if_pos rfl, ← hp4, ← hp2m, ← hp2d,
    valBE_padChars, valBE_padChars, valBE_padChars]

theorem validDate_bounds {y : Int} {m d : Nat} (h : validDate y m d = true) :
    1 ≤ y ∧ y ≤ 9999 ∧ 1 ≤ m ∧ m ≤ 12 ∧ 1 ≤ d ∧ d ≤ 31 := by
  have h31 : daysInMonth y m ≤ 31 := by
    rw [daysInMonth]
    split
    · split <;> omega
    · split <;> omega
  simp only [validDate, Bool.and_eq_true, decide_eq_true_eq] at h
  omega

theorem yearOf_fmtDate (yr : Int) (m d : Nat) (h1 : 1 ≤ yr) (h2 : yr ≤ 9999)
    (hm : m < 100) (hd : d < 100) : yearOfDateStr (fmtDate yr m d) = yr := by
  have hcast : ((yr.toNat : Nat) : Int) = yr := by omega
  rw [yearOfDateStr, show fmtDate yr m d = fmtDate ((yr.toNat : Nat) : Int) m d by rw [hcast],
    parseDate_fmtDate yr.toNat m d (by omega) (by omega) hm hd]
  exact hcast

/-- C10: for a well formed date string, written here as fmtDate y m d for a
valid date, generate_date_range returns exactly the loop list expectedDates:
the dates with the same month and day for each year of
range(y - years_back, y) in increasing year order, formatted YYYY-MM-DD,
keeping precisely the years in which date(yr, m, d) constructs; hence at
most years_back entries, and the input year itself never appears. -/
theorem c10_generate_date_range (y : Int) (m d : Nat) (n : Nat)
    (h : validDate y m d = true) :
    generate_date_range (fmtDate y m d) n = some (expectedDates y m d n) ∧
    (∀ s ∈ expectedDates y m d n, ∃ yr : Int, y - n ≤ yr ∧ yr < y ∧
      validDate yr m d = true ∧ s = fmtDate yr m d) ∧
    (∀ yr : Int, y - n ≤ yr → yr < y → validDate yr m d = true →
      fmtDate yr m d ∈ expectedDates y m d n) ∧
    List.Pairwise (fun s t => yearOfDateStr s < yearOfDateStr t)
      (expectedDates y m d n) ∧
    (expectedDates y m d n).length ≤ n ∧
    fmtDate y m d ∉ expectedDates y m d n := by
  obtain ⟨hy1, hy2, hm1, hm2, hd1, hd2⟩ := validDate_bounds h
  have hcast : ((y.toNat : Nat) : Int) = y := by omega
  have hmem : ∀ s, s ∈ expectedDates y m d n → ∃ yr : Int, y - n ≤ yr ∧ yr < y ∧
      validDate yr m d = true ∧ s = fmtDate yr m d := by
    intro s hs
    simp only [expectedDates, List.mem_filterMap, List.mem_map, List.mem_range] at hs
    obtain ⟨yr, ⟨i, hi, rfl⟩, hif⟩ := hs
    by_cases hv : validDate (y - n + i) m d = true
    · rw [if_pos hv] at hif
      exact ⟨y - n + i, by omega, by omega, hv, (Option.some_inj.mp hif).symm⟩
    · rw [if_neg hv] at hif
      cases hif
  refine ⟨?_, hmem, ?_, ?_, ?_, ?_⟩
  · rw [show fmtDate y m d = fmtDate ((y.toNat : Nat) : Int) m d by rw [hcast],
      generate_date_range,
      parseDate_fmtDate y.toNat m d (by omega) (by omega) (by omega) (by omega)]
    simp only [hcast]
    rw [if_pos h]
  · intro yr hl hu hv
    simp only [expectedDates, List.mem_filterMap, List.mem_map, List.mem_range]
    refine ⟨yr, ⟨(yr - (y - n)).toNat, by omega, by omega⟩, ?_⟩
    rw [if_pos hv]
  · have hpw : List.Pairwise (fun a b => a < b)
        ((List.range n).map (fun i : Nat => y - n + i)) := by
      rw [List.pairwise_map]
      exact (List.pairwise_lt_range n).imp (by intro a b hab; omega)
    refine List.Pairwise.filterMap _ ?_ hpw
    intro a b hab x hx x' hx'
    by_cases hva : validDate a m d = true
    · by_cases hvb : validDate b m d = true
      · rw [if_pos hva] at hx
        rw [if_pos hvb] at hx'
        cases hx
        cases hx'
        obtain ⟨ha1, ha2, _⟩ := validDate_bounds hva
        obtain ⟨hb1, hb2, _⟩ := validDate_bounds hvb
        rw [yearOf_fmtDate a m d ha1 ha2 (by omega) (by omega),
          yearOf_fmtDate b m d hb1 hb2 (by omega) (by omega)]
        exact hab
      · rw [if_neg hvb] at hx'
        cases hx'
    · rw [if_neg hva] at hx
      cases hx
  · refine le_trans (List.length_filterMap_le _ _) ?_
    rw [List.length_map, List.length_range]
  · intro hmem2
    obtain ⟨yr, _, hlt, hv, heq⟩ := hmem _ hmem2
    obtain ⟨h1, h2, _⟩ := validDate_bounds hv
    have hpp := congrArg parseDate heq
    rw [show fmtDate y m d = fmtDate ((y.toNat : Nat) : Int) m d by rw [hcast],
      parseDate_fmtDate y.toNat m d (by omega) (by omega) (by omega) (by omega),
      show fmtDate yr m d = fmtDate ((yr.toNat : Nat) : Int) m d by
        rw [show ((yr.toNat : Nat) : Int) = yr by omega],
      parseDate_fmtDate yr.toNat m d (by omega) (by omega) (by omega) (by omega)]
      at hpp
    have h9 : y.toNat = yr.toNat :=
      congrArg Prod.fst (Option.some_inj.mp hpp)
    omega

/-- Witness for c10_generate_date_range at the leap date 2024-02-29 looking
back four years: only 2020 admits February 29. -/
theorem c10_witness :
    validDate 2024 2 29 = true ∧
    generate_date_range (fmtDate 2024 2 29) 4 = some (expectedDates 2024 2 29 4) ∧
    fmtDate 2024 2 29 ∉ expectedDates 2024 2 29 4 ∧
    expectedDates 2024 2 29 4 = ["2020-02-29"] := by
  obtain ⟨h1, _, _, _, _, h6⟩ := c10_generate_date_range 2024 2 29 4 (by decide)
  exact ⟨by decide, h1, h6, by decide⟩
